import Mathlib

/-!
A Lean model of the DIMACS IRP track solution verifier (`verify.py`).

Python semantics are modelled as follows, throughout:
* Python arbitrary-precision `int` is `ℤ`.
* Python `float` values are modelled as exact rationals `ℚ`.  All concrete
  float values appearing in theorems below are dyadic rationals of small
  height, on which CPython binary64 arithmetic is exact, except where the
  dedicated binary64 rounding function `float64In8To16` is applied
  explicitly.
* A Python list subscript `l[i]` admits negative indices (counted from the
  end of the list); an out-of-range subscript raises `IndexError`.  This is
  `pyGet` / `pySet` below, with `VerifErr.indexError` for the exception.
* `raise VerificationError(...)` is the `Except` monad; the structured
  constructors of `VerifErr` carry the data that the Python code
  interpolates into its message strings (day and route indices 0-based).
-/

/-- Round a rational to the nearest integer, ties to the even integer.
This is the rounding used both by CPython float formatting (applied to the
exact binary value) and by IEEE-754 binary64 operations. -/
def roundHalfEven (q : ℚ) : ℤ :=
  let n := ⌊q⌋
  let f := q - (n : ℚ)
  if f < 1/2 then n
  else if 1/2 < f then n + 1
  else if n % 2 = 0 then n else n + 1

/-- CPython `"{:.2f}".format(q)` on a (modelled) float value `q`: the exact
value is correctly rounded to two fractional digits, ties to even, and
rendered with a sign, the integer part, a dot and a two-digit fraction.
(The `-0.00` case for a negative zero float cannot arise in `ℚ`.) -/
def pyFormat2 (q : ℚ) : String :=
  let c := roundHalfEven (|q| * 100)
  let sign := if q < 0 then "-" else ""
  let frac := c % 100
  sign ++ toString (c / 100) ++ "." ++
    (if frac < 10 then "0" ++ toString frac else toString frac)

/-- The IEEE-754 binary64 value nearest to a rational `q` lying in the
binade `[8, 16)`: the significand has 53 bits, so the value is rounded to a
multiple of `2 ^ (-49)`, ties to even.  This converts the decimal literals
`10.005`, `10.004`, `10.0044` of the specification into the Python float
they actually denote. -/
def float64In8To16 (q : ℚ) : ℚ :=
  (roundHalfEven (q * 2 ^ 49) : ℚ) / 2 ^ 49

/-- Python list read `l[i]`: negative indices count from the end; `none`
models an `IndexError`. -/
def pyGet {α : Type} (l : List α) (i : ℤ) : Option α :=
  let j := if i < 0 then i + (l.length : ℤ) else i
  if 0 ≤ j then l.get? j.toNat else none

/-- Python list element assignment `l[i] = a`: negative indices count from
the end; `none` models an `IndexError`. -/
def pySet {α : Type} (l : List α) (i : ℤ) (a : α) : Option (List α) :=
  let j := if i < 0 then i + (l.length : ℤ) else i
  if 0 ≤ j ∧ j < (l.length : ℤ) then some (l.set j.toNat a) else none

/-- Representation of IRP instance data (class `Instance`).  The four meta
fields are kept as Python integers; the five per-node lists are index
aligned with node 0 the depot. -/
structure Instance where
  num_nodes : ℤ
  num_days : ℤ
  capacity : ℤ
  num_vehicles : ℤ
  pos : List (ℚ × ℚ)
  inventory_start : List ℤ
  inventory_max : List ℤ
  inventory_min : List ℤ
  inventory_change : List ℤ
  inventory_cost : List ℚ
  deriving DecidableEq, Repr

/-- Representation of IRP solution data (class `Solution`): `routes` is
indexed day, then vehicle, each route a list of `(customer, quantity)`
pairs, followed by the six reported trailer values. -/
structure Solution where
  routes : List (List (List (ℤ × ℤ)))
  cost_transportation : ℤ
  cost_inventory_customers : ℚ
  cost_inventory_depot : ℚ
  cost : ℚ
  processor : String
  time : ℚ
  deriving DecidableEq, Repr

/-- The errors that `verify_solution` / `verify_time` can raise, with the
data interpolated into the Python message strings.  Day and route indices
are 0-based (the Python code renders them 1-based through the auxiliary
name lists).  `indexError` models a Python `IndexError` escaping from a
list subscript. -/
inductive VerifErr where
  | tooManyDeliveries (day : ℕ) (node : ℕ) (count : ℤ)
  | capacityExceeded (day : ℕ) (route : ℕ) (volume : ℤ)
  | inventoryTooHigh (day : ℕ) (route : ℕ) (node : ℤ) (level : ℤ) (bound : ℤ)
  | inventoryTooLow (day : ℕ) (node : ℕ) (level : ℤ) (bound : ℤ)
  | costMismatch (description : String) (expected : String) (actual : String)
  | unknownProcessor (name : String)
  | timeLimitExceeded (time : ℚ) (limit : ℚ)
  | indexError
  deriving DecidableEq, Repr

/-- Python list read inside the verifier: an out-of-range subscript raises. -/
def getPy {α : Type} (l : List α) (i : ℤ) : Except VerifErr α :=
  match pyGet l i with
  | some a => .ok a
  | none => .error .indexError

/-- Python list element assignment inside the verifier: an out-of-range
subscript raises. -/
def setPy {α : Type} (l : List α) (i : ℤ) (a : α) : Except VerifErr (List α) :=
  match pySet l i a with
  | some l => .ok l
  | none => .error .indexError

/-- `expect_equal` of `verify.py` specialised to the integer comparison it
is used for: raise unless `expected != actual` is false.  The raised error
carries the rendered values, as the Python message does. -/
def expect_equal (description : String) (expected actual : ℤ) : Except VerifErr Unit :=
  if expected ≠ actual then
    .error (.costMismatch description (toString expected) (toString actual))
  else .ok ()

/-- `expect_equal_float` of `verify.py`: compare expected and actual float
by their string representation with 2 decimal places. -/
def expect_equal_float (description : String) (expected actual : ℚ) : Except VerifErr Unit :=
  let expected_formatted := pyFormat2 expected
  let actual_formatted := pyFormat2 actual
  if expected_formatted ≠ actual_formatted then
    .error (.costMismatch description expected_formatted actual_formatted)
  else .ok ()

/-- `rounded_distance` of `verify.py` on two points: the Euclidean distance
rounded to integer by `int(math.sqrt(dsq) + 0.5)`.  Python's float square
root is modelled by the exact real square root; the defining formula below
is a computable rendering whose agreement with
`⌊Real.sqrt dsq + 1/2⌋` is proved in `claim_C4`. -/
def rounded_distance (s t : ℚ × ℚ) : ℤ :=
  ((Nat.sqrt (Int.toNat ⌊4 * ((s.1 - t.1) ^ 2 + (s.2 - t.2) ^ 2)⌋) + 1) / 2 : ℕ)

/-- The delivery loop body of `verify_inventory_limits_and_cost` for one
route: `inventory[customer] += delivery`, `inventory[0] -= delivery`, then
raise if `inventory[customer] > inventory_max[customer]`, in that order. -/
def applyDeliveriesRoute (inst : Instance) (d r : ℕ) :
    List (ℤ × ℤ) → List ℤ → Except VerifErr (List ℤ)
  | [], inv => .ok inv
  | (customer, delivery) :: rest, inv => do
      let v ← getPy inv customer
      let inv ← setPy inv customer (v + delivery)
      let v0 ← getPy inv 0
      let inv ← setPy inv 0 (v0 - delivery)
      let level ← getPy inv customer
      let bound ← getPy inst.inventory_max customer
      if level > bound then
        .error (.inventoryTooHigh d r customer level bound)
      else
        applyDeliveriesRoute inst d r rest inv

/-- Step one of a simulated day: the delivery loop over the day's routes,
`r` counting the route index for error reporting. -/
def applyDeliveriesDay (inst : Instance) (d : ℕ) :
    ℕ → List (List (ℤ × ℤ)) → List ℤ → Except VerifErr (List ℤ)
  | _, [], inv => .ok inv
  | r, route :: rest, inv => do
      let inv ← applyDeliveriesRoute inst d r route inv
      applyDeliveriesDay inst d (r + 1) rest inv

/-- Step two of a simulated day: `for i, change in
enumerate(inventory_change): inventory[i] += change`, raising as soon as a
node's level falls below `inventory_min[i]`. -/
def applyChangeFrom (inst : Instance) (d : ℕ) :
    ℕ → List ℤ → List ℤ → Except VerifErr (List ℤ)
  | _, [], inv => .ok inv
  | i, ch :: rest, inv => do
      let v ← getPy inv (i : ℤ)
      let inv ← setPy inv (i : ℤ) (v + ch)
      let level ← getPy inv (i : ℤ)
      let bound ← getPy inst.inventory_min (i : ℤ)
      if level < bound then .error (.inventoryTooLow d i level bound)
      else applyChangeFrom inst d (i + 1) rest inv

/-- Final step of a simulated day: `for i, cost in
enumerate(inventory_cost): cost_inventory[i] += cost * inventory[i]`. -/
def accrueFrom : ℕ → List ℚ → List ℤ → List ℚ → Except VerifErr (List ℚ)
  | _, [], _, acc => .ok acc
  | i, c :: rest, inv, acc => do
      let v ← getPy inv (i : ℤ)
      let a ← getPy acc (i : ℤ)
      let acc ← setPy acc (i : ℤ) (a + c * (v : ℚ))
      accrueFrom (i + 1) rest inv acc

/-- The day loop of `verify_inventory_limits_and_cost`: for each day of the
solution, deliveries, then daily change, then holding-cost accrual, taking
the running inventory vector and per-node cost accumulator to their final
values. -/
def simulateDays (inst : Instance) :
    ℕ → List (List (List (ℤ × ℤ))) → List ℤ → List ℚ →
    Except VerifErr (List ℤ × List ℚ)
  | _, [], inv, acc => .ok (inv, acc)
  | d, dayRoutes :: rest, inv, acc => do
      let inv ← applyDeliveriesDay inst d 0 dayRoutes inv
      let inv ← applyChangeFrom inst d 0 inst.inventory_change inv
      let acc ← accrueFrom 0 inst.inventory_cost inv acc
      simulateDays inst (d + 1) rest inv acc

/-- The simulation part of `verify_inventory_limits_and_cost`: start from
`inventory = instance.inventory_start.copy()` and
`cost_inventory = [0.0] * num_nodes`, then run all days. -/
def simulateInventoryCosts (inst : Instance) (sol : Solution) :
    Except VerifErr (List ℤ × List ℚ) :=
  simulateDays inst 0 sol.routes inst.inventory_start
    (List.replicate inst.num_nodes.toNat 0)

/-- `verify_inventory_limits_and_cost` of `verify.py`: the day-by-day
simulation followed by the two holding-cost comparisons (customers
`sum(cost_inventory[1:])` first, then depot `cost_inventory[0]`). -/
def verify_inventory_limits_and_cost (inst : Instance) (sol : Solution) :
    Except VerifErr Unit := do
  let (_, acc) ← simulateInventoryCosts inst sol
  expect_equal_float "total inventory cost at customers"
    (acc.drop 1).sum sol.cost_inventory_customers
  let c0 ← getPy acc 0
  expect_equal_float "total inventory cost at depot" c0 sol.cost_inventory_depot

/-- The delivery-count loop of
`verify_at_most_one_delivery_to_each_customer_per_day` over one route:
`customer_deliveries[customer] += 1` with Python indexing. -/
def countDeliveriesRoute : List ℤ → List (ℤ × ℤ) → Except VerifErr (List ℤ)
  | counts, [] => .ok counts
  | counts, (customer, _) :: rest => do
      let v ← getPy counts customer
      let counts ← setPy counts customer (v + 1)
      countDeliveriesRoute counts rest

/-- Delivery counting over all routes of one day. -/
def countDeliveriesDay : List ℤ → List (List (ℤ × ℤ)) → Except VerifErr (List ℤ)
  | counts, [] => .ok counts
  | counts, route :: rest => do
      let counts ← countDeliveriesRoute counts route
      countDeliveriesDay counts rest

/-- The reporting loop of the uniqueness check: the first `customer` (in
index order) with more than one delivery that day is the raised error. -/
def checkCounts (d : ℕ) : ℕ → List ℤ → Except VerifErr Unit
  | _, [] => .ok ()
  | i, c :: rest =>
      if c > 1 then .error (.tooManyDeliveries d i c)
      else checkCounts d (i + 1) rest

/-- Day loop of the uniqueness check. -/
def uniquenessDays (inst : Instance) :
    ℕ → List (List (List (ℤ × ℤ))) → Except VerifErr Unit
  | _, [] => .ok ()
  | d, dayRoutes :: rest => do
      let counts ← countDeliveriesDay
        (List.replicate inst.num_nodes.toNat 0) dayRoutes
      checkCounts d 0 counts
      uniquenessDays inst (d + 1) rest

/-- `verify_at_most_one_delivery_to_each_customer_per_day` of `verify.py`. -/
def verify_at_most_one_delivery_to_each_customer_per_day
    (inst : Instance) (sol : Solution) : Except VerifErr Unit :=
  uniquenessDays inst 0 sol.routes

/-- `sum([quantity for _, quantity in route])`. -/
def routeVolume (route : List (ℤ × ℤ)) : ℤ :=
  route.foldl (fun a p => a + p.2) 0

/-- Route loop of `verify_capacities` for one day. -/
def capacityRoutes (inst : Instance) (d : ℕ) :
    ℕ → List (List (ℤ × ℤ)) → Except VerifErr Unit
  | _, [] => .ok ()
  | r, route :: rest =>
      if routeVolume route > inst.capacity then
        .error (.capacityExceeded d r (routeVolume route))
      else capacityRoutes inst d (r + 1) rest

/-- Day loop of `verify_capacities`. -/
def capacityDays (inst : Instance) :
    ℕ → List (List (List (ℤ × ℤ))) → Except VerifErr Unit
  | _, [] => .ok ()
  | d, dayRoutes :: rest => do
      capacityRoutes inst d 0 dayRoutes
      capacityDays inst (d + 1) rest

/-- `verify_capacities` of `verify.py`. -/
def verify_capacities (inst : Instance) (sol : Solution) : Except VerifErr Unit :=
  capacityDays inst 0 sol.routes

/-- `[0] + [x for x, _ in route] + [0]`: the tour walked by
`verify_transportation_costs`. -/
def routeTour (route : List (ℤ × ℤ)) : List ℤ :=
  0 :: (route.map Prod.fst ++ [0])

/-- `for s, t in zip(tour[:-1], tour[1:]): cost += rounded_distance(s, t)`,
with both node positions read through Python indexing of `instance.pos`. -/
def tourCost (inst : Instance) : List ℤ → Except VerifErr ℤ
  | a :: b :: rest => do
      let pa ← getPy inst.pos a
      let pb ← getPy inst.pos b
      let c ← tourCost inst (b :: rest)
      .ok (rounded_distance pa pb + c)
  | _ => .ok 0

/-- Accumulation of the computed transportation cost over all routes of all
days. -/
def computed_transportation (inst : Instance) :
    List (List (List (ℤ × ℤ))) → Except VerifErr ℤ
  | [] => .ok 0
  | dayRoutes :: rest => do
      let cday ← dayCost dayRoutes
      let crest ← computed_transportation inst rest
      .ok (cday + crest)
where
  dayCost : List (List (ℤ × ℤ)) → Except VerifErr ℤ
    | [] => .ok 0
    | route :: rest => do
        let c ← tourCost inst (routeTour route)
        let cs ← dayCost rest
        .ok (c + cs)

/-- `verify_transportation_costs` of `verify.py`: the accumulated rounded
distances are compared to `solution.cost_transportation` with
`expect_equal`. -/
def verify_transportation_costs (inst : Instance) (sol : Solution) :
    Except VerifErr Unit := do
  let c ← computed_transportation inst sol.routes
  expect_equal "total transportation cost" c sol.cost_transportation

/-- `verify_total_cost` of `verify.py`: the three reported partial costs
are summed (`self.cost_transportation + self.cost_inventory_depot +
self.cost_inventory_customers`) and compared to the reported
`self.cost` with `expect_equal_float`. -/
def verify_total_cost (sol : Solution) : Except VerifErr Unit :=
  expect_equal_float "total cost"
    ((sol.cost_transportation : ℚ) + sol.cost_inventory_depot +
      sol.cost_inventory_customers)
    sol.cost

/-- `Solution.verify_solution` of `verify.py`: the five checks in source
order, each aborting the verification on its first violation. -/
def verify_solution (inst : Instance) (sol : Solution) : Except VerifErr Unit := do
  verify_at_most_one_delivery_to_each_customer_per_day inst sol
  verify_capacities inst sol
  verify_transportation_costs inst sol
  verify_inventory_limits_and_cost inst sol
  verify_total_cost sol

/-- `Solution.verify_time` of `verify.py`: the benchmark table is a finite
map from processor name to score (Python floats/ints modelled as exact
rationals). -/
def verify_time (sol : Solution) (processors : List (String × ℚ)) :
    Except VerifErr Unit :=
  match processors.lookup sol.processor with
  | none => .error (.unknownProcessor sol.processor)
  | some mark =>
      let scaling_factor := 2000 / mark
      let base_timelimit : ℚ := 30 * 60
      let timelimit := scaling_factor * base_timelimit
      if sol.time > timelimit then
        .error (.timeLimitExceeded sol.time timelimit)
      else .ok ()

deriving instance DecidableEq for Except

/-- Exceptions escaping `Instance.__init_by_lines`: `ValueError` from
`int(...)` / `float(...)` on a malformed token, `TypeError` from unpacking
a line with the wrong number of fields.  (The `Instance` reader has no
`ReadError` class and no line numbers; the driver catches any exception as
a failed instance read.) -/
inductive InstErr where
  | badInt (token : String)
  | badFloat (token : String)
  | badFieldCount
  deriving DecidableEq, Repr

/-- The two console warnings `Instance.__append_node_lists_by_customer` can
print, carrying the raw string fields interpolated into the message. -/
inductive Warning where
  | startBelowMin (index start minLevel : String)
  | startAboveMax (index start maxLevel : String)
  deriving DecidableEq, Repr

/-- Character-level `str.split(sep)`: split a character list at every
occurrence of `sep`, keeping empty chunks (as Python `split` with an
explicit separator does). -/
def splitOnChar (sep : Char) : List Char → List (List Char)
  | [] => [[]]
  | c :: rest =>
      let r := splitOnChar sep rest
      if c = sep then [] :: r
      else
        match r with
        | t :: ts => (c :: t) :: ts
        | [] => [[c]]

/-- Python `str.split()` on space-separated fields: empty chunks between
separator runs are discarded. -/
def pySplit (s : String) : List String :=
  ((splitOnChar ' ' s.data).filter (fun t => t ≠ [])).map String.mk

/-- The digit-list value of a token, `none` if some character is not a
digit; the empty list has value 0. -/
def digitsVal? (l : List Char) : Option ℕ :=
  if l.all Char.isDigit then
    some (l.foldl (fun a c => 10 * a + (c.toNat - 48)) 0)
  else none

/-- Python `int(token)` (optional minus sign, nonempty decimal digits). -/
def pyInt? (s : String) : Option ℤ :=
  match s.data with
  | '-' :: rest =>
      if rest = [] then none
      else (digitsVal? rest).map (fun n => -(n : ℤ))
  | l =>
      if l = [] then none
      else (digitsVal? l).map (fun n => (n : ℤ))

/-- The magnitude of a Python float literal: digits with an optional dot. -/
def floatMagnitude? (l : List Char) : Option ℚ :=
  match splitOnChar '.' l with
  | [w] =>
      if w = [] then none
      else (digitsVal? w).map (fun n => (n : ℚ))
  | [w, f] =>
      if w = [] ∧ f = [] then none
      else
        match digitsVal? w, digitsVal? f with
        | some wv, some fv => some ((wv : ℚ) + (fv : ℚ) / 10 ^ f.length)
        | _, _ => none
  | _ => none

/-- Python `float(token)` on the plain decimal literals appearing in
instance files (optional minus sign, digits, optional dot and digits); the
value is kept exact in `ℚ`. -/
def pyFloat? (s : String) : Option ℚ :=
  match s.data with
  | '-' :: rest => (floatMagnitude? rest).map (fun q => -q)
  | l => floatMagnitude? l

/-- `int(token)` raising `ValueError` on failure. -/
def parseIntTok (s : String) : Except InstErr ℤ :=
  match pyInt? s with
  | some n => .ok n
  | none => .error (.badInt s)

/-- `float(token)` raising `ValueError` on failure. -/
def parseFloatTok (s : String) : Except InstErr ℚ :=
  match pyFloat? s with
  | some q => .ok q
  | none => .error (.badFloat s)

/-- `[int(val) for val in meta_line.split()]`. -/
def parseIntList : List String → Except InstErr (List ℤ)
  | [] => .ok []
  | t :: rest => do
      let v ← parseIntTok t
      let vs ← parseIntList rest
      .ok (v :: vs)

/-- `Instance.__init_node_lists_by_depot`: six fields
`index x y start change cost`; the depot gets `inventory_max = start +
change * num_days`, `inventory_min = 0` and a positive `inventory_change`. -/
def initNodeListsByDepot (nn nd cap nv : ℤ) (fields : List String) :
    Except InstErr Instance :=
  match fields with
  | [_index, x, y, start, change, cost] => do
      let xv ← parseFloatTok x
      let yv ← parseFloatTok y
      let sv ← parseIntTok start
      let cv ← parseIntTok change
      let hv ← parseFloatTok cost
      .ok { num_nodes := nn
            num_days := nd
            capacity := cap
            num_vehicles := nv
            pos := [(xv, yv)]
            inventory_start := [sv]
            inventory_max := [sv + cv * nd]
            inventory_min := [0]
            inventory_change := [cv]
            inventory_cost := [hv] }
  | _ => .error .badFieldCount

/-- `Instance.__append_node_lists_by_customer`: eight fields
`index x y start u l change cost`; start levels outside `[l, u]` only
print warnings; the stored `inventory_change` is `-int(change)`. -/
def appendNodeListsByCustomer (inst : Instance) (ws : List Warning)
    (fields : List String) : Except InstErr (Instance × List Warning) :=
  match fields with
  | [index, x, y, start, u, l, change, cost] => do
      let xv ← parseFloatTok x
      let yv ← parseFloatTok y
      let sv ← parseIntTok start
      let lv ← parseIntTok l
      let uv ← parseIntTok u
      let cv ← parseIntTok change
      let hv ← parseFloatTok cost
      let ws := ws ++ (if sv < lv then [.startBelowMin index start l] else [])
      let ws := ws ++ (if sv > uv then [.startAboveMax index start u] else [])
      .ok ({ inst with
              pos := inst.pos ++ [(xv, yv)]
              inventory_start := inst.inventory_start ++ [sv]
              inventory_max := inst.inventory_max ++ [uv]
              inventory_min := inst.inventory_min ++ [lv]
              inventory_change := inst.inventory_change ++ [-cv]
              inventory_cost := inst.inventory_cost ++ [hv] }, ws)
  | _ => .error .badFieldCount

/-- The customer-line loop of `Instance.__init_by_lines`. -/
def appendCustomers : Instance → List Warning → List String →
    Except InstErr (Instance × List Warning)
  | inst, ws, [] => .ok (inst, ws)
  | inst, ws, line :: rest => do
      let (inst, ws) ← appendNodeListsByCustomer inst ws (pySplit line)
      appendCustomers inst ws rest

/-- `Instance.__init_by_lines`: the meta line must hold exactly four
integers, then the depot line, then one line per customer.  No check
relates the number of customer lines to the declared `num_nodes`. -/
def mkInstance (lines : List String) : Except InstErr (Instance × List Warning) :=
  match lines with
  | meta_line :: depot_line :: customer_lines => do
      let meta_data ← parseIntList (pySplit meta_line)
      match meta_data with
      | [nn, nd, cap, nv] => do
          let inst ← initNodeListsByDepot nn nd cap nv (pySplit depot_line)
          appendCustomers inst [] customer_lines
      | _ => .error .badFieldCount
  | _ => .error .badFieldCount

/-- Exceptions escaping `parse_route` inside `Solution.__init__`: the
`ReadError` variants of the route grammar, plus the Python `TypeError`
raised by `int(None)` when a stop is truncated directly after its opening
parenthesis.  Constructors carry the data interpolated into the message. -/
inductive RouteErr where
  | tooShort
  | notStartingAtDepot
  | missingFirstDelimiter
  | missingDepotAtEnd
  | expectedDepotAtEnd (got : String)
  | badInt (token : String)
  | nonexistentCustomer (customer : ℤ)
  | expectedToken (expected : String) (got : Option String)
  | typeError
  deriving DecidableEq, Repr

/-- `parse_int` inside the route grammar (`ValueError` becomes a
`ReadError`). -/
def parseRouteInt (s : String) : Except RouteErr ℤ :=
  match pyInt? s with
  | some n => .ok n
  | none => .error (.badInt s)

/-- `parse_remaining_route` of `verify.py` on the token list after the
leading `0 -`: stops are the 5-token pattern `customer ( quantity ) -`,
terminated by a bare `0`.  The only check on a parsed customer id is
`customer >= num_nodes`. -/
def parse_remaining_route (num_nodes : ℤ) :
    List String → Except RouteErr (List (ℤ × ℤ))
  | [] => .error .missingDepotAtEnd
  | [customer_str] =>
      if customer_str = "0" then .ok []
      else .error (.expectedDepotAtEnd customer_str)
  | [c, p] => do
      let customer ← parseRouteInt c
      if customer ≥ num_nodes then .error (.nonexistentCustomer customer)
      else if p ≠ "(" then .error (.expectedToken "(" (some p))
      else .error .typeError
  | [c, p, q] => do
      let customer ← parseRouteInt c
      if customer ≥ num_nodes then .error (.nonexistentCustomer customer)
      else if p ≠ "(" then .error (.expectedToken "(" (some p))
      else do
        let _ ← parseRouteInt q
        .error (.expectedToken ")" none)
  | [c, p, q, cp] => do
      let customer ← parseRouteInt c
      if customer ≥ num_nodes then .error (.nonexistentCustomer customer)
      else if p ≠ "(" then .error (.expectedToken "(" (some p))
      else do
        let _ ← parseRouteInt q
        if cp ≠ ")" then .error (.expectedToken ")" (some cp))
        else .error (.expectedToken "-" none)
  | c :: p :: q :: cp :: dash :: remaining => do
      let customer ← parseRouteInt c
      if customer ≥ num_nodes then .error (.nonexistentCustomer customer)
      else if p ≠ "(" then .error (.expectedToken "(" (some p))
      else do
        let quantity ← parseRouteInt q
        if cp ≠ ")" then .error (.expectedToken ")" (some cp))
        else if dash ≠ "-" then .error (.expectedToken "-" (some dash))
        else do
          let rest ← parse_remaining_route num_nodes remaining
          .ok ((customer, quantity) :: rest)

/-- `parse_route` of `verify.py`: the route token list must start with
`0 -`; the remainder is handed to `parse_remaining_route`. -/
def parse_route (num_nodes : ℤ) : List String → Except RouteErr (List (ℤ × ℤ))
  | [] => .error .tooShort
  | [_] => .error .tooShort
  | start_zero :: start_dash :: route =>
      if start_zero ≠ "0" then .error .notStartingAtDepot
      else if start_dash ≠ "-" then .error .missingFirstDelimiter
      else parse_remaining_route num_nodes route

/-- One delivery as worded in the specification: `inventory[customer] +=
qty; inventory[depot] -= qty`, with plain (non-wrapping) list indexing. -/
def specDeliverOne (inv : List ℤ) (c : ℕ) (q : ℤ) : List ℤ :=
  let inv := inv.set c (inv.getD c 0 + q)
  inv.set 0 (inv.getD 0 0 - q)

/-- The delivery phase of one day as worded in the specification: every
delivery of every route is applied in order, and an error is raised
immediately after any individual delivery that puts the customer above
`inventory_max[customer]`. -/
def specDeliveriesRoute (mx : List ℤ) (d r : ℕ) :
    List (ℤ × ℤ) → List ℤ → Except VerifErr (List ℤ)
  | [], inv => .ok inv
  | (c, q) :: rest, inv =>
      let inv := specDeliverOne inv c.toNat q
      let level := inv.getD c.toNat 0
      let bound := mx.getD c.toNat 0
      if level > bound then .error (.inventoryTooHigh d r c level bound)
      else specDeliveriesRoute mx d r rest inv

/-- Delivery phase over the routes of one day (specification wording). -/
def specDeliveriesDay (mx : List ℤ) (d : ℕ) :
    ℕ → List (List (ℤ × ℤ)) → List ℤ → Except VerifErr (List ℤ)
  | _, [], inv => .ok inv
  | r, route :: rest, inv => do
      let inv ← specDeliveriesRoute mx d r route inv
      specDeliveriesDay mx d (r + 1) rest inv

/-- The daily-change phase as worded in the specification: the change is
added for every node including the depot, and an error is raised for the
first node (in index order) whose level then falls below
`inventory_min[i]` — the depot's lower bound is checked too. -/
def specChange (mn : List ℤ) (d : ℕ) :
    ℕ → List ℤ → List ℤ → Except VerifErr (List ℤ)
  | _, [], inv => .ok inv
  | i, ch :: rest, inv =>
      let inv := inv.set i (inv.getD i 0 + ch)
      let level := inv.getD i 0
      let bound := mn.getD i 0
      if level < bound then .error (.inventoryTooLow d i level bound)
      else specChange mn d (i + 1) rest inv

/-- The holding-cost phase as worded in the specification: at the
post-change level, `inventory_cost[i] * inventory[i]` is accrued for every
node (a pure computation; the loop cannot fail). -/
def specAccrue : ℕ → List ℚ → List ℤ → List ℚ → List ℚ
  | _, [], _, acc => acc
  | i, c :: rest, inv, acc =>
      specAccrue (i + 1) rest inv (acc.set i (acc.getD i 0 + c * (inv.getD i 0 : ℚ)))

/-- The day-by-day inventory simulation as worded in the specification:
within each day, first all deliveries, then the daily change, then the
holding-cost accrual at the post-change levels. -/
def specSimulateDays (inst : Instance) :
    ℕ → List (List (List (ℤ × ℤ))) → List ℤ → List ℚ →
    Except VerifErr (List ℤ × List ℚ)
  | _, [], inv, acc => .ok (inv, acc)
  | d, dayRoutes :: rest, inv, acc => do
      let inv ← specDeliveriesDay inst.inventory_max d 0 dayRoutes inv
      let inv ← specChange inst.inventory_min d 0 inst.inventory_change inv
      specSimulateDays inst (d + 1) rest inv (specAccrue 0 inst.inventory_cost inv acc)

/-- The whole simulation as worded in the specification: a copy of
`inventory_start` evolved day by day, holding costs starting from zero. -/
def specInventorySimulation (inst : Instance) (sol : Solution) :
    Except VerifErr (List ℤ × List ℚ) :=
  specSimulateDays inst 0 sol.routes inst.inventory_start
    (List.replicate inst.num_nodes.toNat 0)

/-- The per-node instance arrays all have length `n`, `num_nodes = n`. -/
def Instance.wf (inst : Instance) (n : ℕ) : Prop :=
  inst.num_nodes = (n : ℤ) ∧
  inst.inventory_start.length = n ∧
  inst.inventory_max.length = n ∧
  inst.inventory_min.length = n ∧
  inst.inventory_change.length = n ∧
  inst.inventory_cost.length = n

instance (inst : Instance) (n : ℕ) : Decidable (inst.wf n) := by
  unfold Instance.wf; infer_instance

/-- Every customer id mentioned in the routes is a genuine customer index:
strictly between 0 (the depot) and `n` (the node count). -/
def idsInRange (n : ℕ) (days : List (List (List (ℤ × ℤ)))) : Prop :=
  ∀ dayRoutes ∈ days, ∀ route ∈ dayRoutes, ∀ cq ∈ route,
    0 < cq.1 ∧ cq.1 < (n : ℤ)

instance (n : ℕ) (days : List (List (List (ℤ × ℤ)))) :
    Decidable (idsInRange n days) := by
  unfold idsInRange; infer_instance

/-- A 2-node, 1-day instance with dyadic holding-cost rate `2561/256 =
10.00390625` at both nodes (exact in binary64); the depot starts at 1 and
produces nothing, the customer starts at 2 and consumes 1 per day. -/
def instA : Instance where
  num_nodes := 2
  num_days := 1
  capacity := 10
  num_vehicles := 1
  pos := [(0, 0), (1, 0)]
  inventory_start := [1, 2]
  inventory_max := [1, 2]
  inventory_min := [0, 0]
  inventory_change := [0, -1]
  inventory_cost := [2561/256, 2561/256]

/-- A solution for `instA` with one empty route, which reports each holding
cost as `10` (both true values are `10.00390625`, equal to the report at
two decimal places) and the total as `20`. -/
def solA : Solution where
  routes := [[[]]]
  cost_transportation := 0
  cost_inventory_customers := 10
  cost_inventory_depot := 10
  cost := 20
  processor := "x"
  time := 0

/-- A 3-node, 2-day, 2-vehicle instance with capacity 5. -/
def instB : Instance where
  num_nodes := 3
  num_days := 2
  capacity := 5
  num_vehicles := 2
  pos := [(0, 0), (1, 0), (0, 1)]
  inventory_start := [10, 0, 0]
  inventory_max := [100, 50, 50]
  inventory_min := [0, 0, 0]
  inventory_change := [0, 0, 0]
  inventory_cost := [0, 0, 0]

/-- A solution for `instB` with a capacity violation on the first day
(route 1 delivers 100 > 5) and a duplicate delivery on the second day
(both routes deliver to customer 1). -/
def solB : Solution where
  routes := [[[(1, 100)], []], [[(1, 0)], [(1, 0)]]]
  cost_transportation := 0
  cost_inventory_customers := 0
  cost_inventory_depot := 0
  cost := 0
  processor := "x"
  time := 0

/-- Text of a 2-node instance whose customer line declares a start level 5
above its maximum 2. -/
def linesC : List String := ["2 1 10 1", "0 0 0 1 0 10", "1 1 0 5 2 0 1 10"]

/-- The `Instance` value parsed from `linesC`. -/
def instC : Instance where
  num_nodes := 2
  num_days := 1
  capacity := 10
  num_vehicles := 1
  pos := [(0, 0), (1, 0)]
  inventory_start := [1, 5]
  inventory_max := [1, 2]
  inventory_min := [0, 0]
  inventory_change := [0, -1]
  inventory_cost := [10, 10]

/-- The `Instance` state after only the meta and depot lines of `linesC`. -/
def instCdepot : Instance where
  num_nodes := 2
  num_days := 1
  capacity := 10
  num_vehicles := 1
  pos := [(0, 0)]
  inventory_start := [1]
  inventory_max := [1]
  inventory_min := [0]
  inventory_change := [0]
  inventory_cost := [10]

/-- A correctly-reported solution for `instC` with one empty route. -/
def solC : Solution where
  routes := [[[]]]
  cost_transportation := 0
  cost_inventory_customers := 40
  cost_inventory_depot := 10
  cost := 50
  processor := "x"
  time := 0

/-- Text of an instance declaring `num_nodes = 3` but supplying only one
customer line. -/
def lines8 : List String := ["3 1 10 1", "0 0 0 1 0 10", "1 1 0 5 10 0 1 10"]

/-- The `Instance` value parsed from `lines8`: `num_nodes` is 3 while every
per-node array has only 2 entries. -/
def inst8 : Instance where
  num_nodes := 3
  num_days := 1
  capacity := 10
  num_vehicles := 1
  pos := [(0, 0), (1, 0)]
  inventory_start := [1, 5]
  inventory_max := [1, 10]
  inventory_min := [0, 0]
  inventory_change := [0, -1]
  inventory_cost := [10, 10]

/-- A 3-node instance used to demonstrate negative-index deliveries. -/
def instD : Instance where
  num_nodes := 3
  num_days := 1
  capacity := 100
  num_vehicles := 1
  pos := [(0, 0), (1, 0), (0, 1)]
  inventory_start := [7, 8, 9]
  inventory_max := [100, 100, 100]
  inventory_min := [0, 0, 0]
  inventory_change := [0, 0, 0]
  inventory_cost := [0, 0, 0]

theorem ok_bind {ε α β : Type} (a : α) (f : α → Except ε β) :
    (Except.ok a >>= f : Except ε β) = f a := rfl

theorem error_bind {ε α β : Type} (e : ε) (f : α → Except ε β) :
    (Except.error e >>= f : Except ε β) = .error e := rfl

/-- A Python read at a nonnegative in-range index is the plain list read. -/
theorem getPy_eq {α : Type} (l : List α) (d₀ : α) (i : ℤ) (h0 : 0 ≤ i)
    (hl : i.toNat < l.length) : getPy l i = .ok (l.getD i.toNat d₀) := by
  have hneg : ¬i < 0 := not_lt.mpr h0
  simp only [getPy, pyGet, if_neg hneg, if_pos h0, List.get?_eq_getElem?,
    List.getElem?_eq_getElem hl, List.getD_eq_getElem?_getD, Option.getD_some]

/-- A Python write at a nonnegative in-range index is the plain list set. -/
theorem setPy_eq {α : Type} (l : List α) (a : α) (i : ℤ) (h0 : 0 ≤ i)
    (hl : i.toNat < l.length) : setPy l i a = .ok (l.set i.toNat a) := by
  have hneg : ¬i < 0 := not_lt.mpr h0
  have hj : 0 ≤ i ∧ i < (l.length : ℤ) := ⟨h0, by omega⟩
  simp only [setPy, pySet, if_neg hneg, if_pos hj]

/-- `getPy` at a natural-number index. -/
theorem getPyNat_eq {α : Type} (l : List α) (d₀ : α) (i : ℕ)
    (hl : i < l.length) : getPy l (i : ℤ) = .ok (l.getD i d₀) := by
  have := getPy_eq l d₀ (i : ℤ) (Int.ofNat_nonneg i) (by simpa using hl)
  simpa using this

/-- `setPy` at a natural-number index. -/
theorem setPyNat_eq {α : Type} (l : List α) (a : α) (i : ℕ)
    (hl : i < l.length) : setPy l (i : ℤ) a = .ok (l.set i a) := by
  have := setPy_eq l a (i : ℤ) (Int.ofNat_nonneg i) (by simpa using hl)
  simpa using this

theorem specDeliverOne_length (inv : List ℤ) (c : ℕ) (q : ℤ) :
    (specDeliverOne inv c q).length = inv.length := by
  simp [specDeliverOne]

theorem specDeliveriesRoute_length (mx : List ℤ) (d r : ℕ) :
    ∀ (route : List (ℤ × ℤ)) (inv inv' : List ℤ),
    specDeliveriesRoute mx d r route inv = .ok inv' → inv'.length = inv.length := by
  intro route
  induction route with
  | nil =>
      intro inv inv' h
      simp only [specDeliveriesRoute] at h
      cases h; rfl
  | cons cq rest ih =>
      obtain ⟨c, q⟩ := cq
      intro inv inv' h
      simp only [specDeliveriesRoute] at h
      split at h
      · cases h
      · have := ih (specDeliverOne inv c.toNat q) inv' h
        rw [this, specDeliverOne_length]

theorem specDeliveriesDay_length (mx : List ℤ) (d : ℕ) :
    ∀ (routes : List (List (ℤ × ℤ))) (r : ℕ) (inv inv' : List ℤ),
    specDeliveriesDay mx d r routes inv = .ok inv' → inv'.length = inv.length := by
  intro routes
  induction routes with
  | nil =>
      intro r inv inv' h
      simp only [specDeliveriesDay] at h
      cases h; rfl
  | cons route rest ih =>
      intro r inv inv' h
      simp only [specDeliveriesDay] at h
      cases hr : specDeliveriesRoute mx d r route inv with
      | error e => rw [hr, error_bind] at h; cases h
      | ok inv1 =>
          rw [hr, ok_bind] at h
          have h1 := specDeliveriesRoute_length mx d r route inv inv1 hr
          have h2 := ih (r + 1) inv1 inv' h
          omega

theorem specChange_length (mn : List ℤ) (d : ℕ) :
    ∀ (changes : List ℤ) (i : ℕ) (inv inv' : List ℤ),
    specChange mn d i changes inv = .ok inv' → inv'.length = inv.length := by
  intro changes
  induction changes with
  | nil =>
      intro i inv inv' h
      simp only [specChange] at h
      cases h; rfl
  | cons ch rest ih =>
      intro i inv inv' h
      simp only [specChange] at h
      split at h
      · cases h
      · have := ih (i + 1) (inv.set i (inv.getD i 0 + ch)) inv' h
        simpa using this

theorem specAccrue_length :
    ∀ (costs : List ℚ) (i : ℕ) (inv : List ℤ) (acc : List ℚ),
    (specAccrue i costs inv acc).length = acc.length := by
  intro costs
  induction costs with
  | nil => intro i inv acc; rfl
  | cons c rest ih =>
      intro i inv acc
      simp only [specAccrue]
      rw [ih]
      simp

/-- With in-range customer ids, the Python-indexed delivery loop of the
source agrees with the specification-worded delivery phase. -/
theorem applyDeliveriesRoute_eq_spec (inst : Instance) {n : ℕ} (d r : ℕ)
    (hmx : inst.inventory_max.length = n) (route : List (ℤ × ℤ)) :
    ∀ (inv : List ℤ), inv.length = n →
    (∀ cq ∈ route, 0 < cq.1 ∧ cq.1 < (n : ℤ)) →
    applyDeliveriesRoute inst d r route inv =
      specDeliveriesRoute inst.inventory_max d r route inv := by
  induction route with
  | nil => intro inv _ _; rfl
  | cons cq rest ih =>
      obtain ⟨c, q⟩ := cq
      intro inv hlen hids
      obtain ⟨hc0, hcn⟩ := hids (c, q) (List.mem_cons_self _ _)
      have h0 : (0 : ℤ) ≤ c := le_of_lt hc0
      have e1 : getPy inv c = .ok (inv.getD c.toNat 0) :=
        getPy_eq inv 0 c h0 (by omega)
      have e2 : setPy inv c (inv.getD c.toNat 0 + q) =
          .ok (inv.set c.toNat (inv.getD c.toNat 0 + q)) :=
        setPy_eq inv _ c h0 (by omega)
      have hlen1 : (inv.set c.toNat (inv.getD c.toNat 0 + q)).length = n := by
        simp [hlen]
      have e3 : getPy (inv.set c.toNat (inv.getD c.toNat 0 + q)) 0 =
          .ok ((inv.set c.toNat (inv.getD c.toNat 0 + q)).getD 0 0) :=
        getPy_eq _ 0 0 le_rfl (by simp only [Int.toNat_zero, hlen1]; omega)
      have e4 : setPy (inv.set c.toNat (inv.getD c.toNat 0 + q)) 0
          ((inv.set c.toNat (inv.getD c.toNat 0 + q)).getD 0 0 - q) =
          .ok ((inv.set c.toNat (inv.getD c.toNat 0 + q)).set 0
            ((inv.set c.toNat (inv.getD c.toNat 0 + q)).getD 0 0 - q)) := by
        have := setPy_eq (inv.set c.toNat (inv.getD c.toNat 0 + q))
          ((inv.set c.toNat (inv.getD c.toNat 0 + q)).getD 0 0 - q) 0
          le_rfl (by simp only [Int.toNat_zero, hlen1]; omega)
        simpa using this
      have hlen2 : ((inv.set c.toNat (inv.getD c.toNat 0 + q)).set 0
          ((inv.set c.toNat (inv.getD c.toNat 0 + q)).getD 0 0 - q)).length = n := by
        simp [hlen]
      have e5 : getPy ((inv.set c.toNat (inv.getD c.toNat 0 + q)).set 0
          ((inv.set c.toNat (inv.getD c.toNat 0 + q)).getD 0 0 - q)) c =
          .ok (((inv.set c.toNat (inv.getD c.toNat 0 + q)).set 0
            ((inv.set c.toNat (inv.getD c.toNat 0 + q)).getD 0 0 - q)).getD c.toNat 0) :=
        getPy_eq _ 0 c h0 (by omega)
      have e6 : getPy inst.inventory_max c =
          .ok (inst.inventory_max.getD c.toNat 0) :=
        getPy_eq _ 0 c h0 (by omega)
      simp only [applyDeliveriesRoute, specDeliveriesRoute, specDeliverOne,
        e1, ok_bind, e2, e3, e4, e5, e6, Int.toNat_zero]
      split
      · rfl
      · exact ih _ (by simp [hlen]) fun cq hcq => hids cq (List.mem_cons_of_mem _ hcq)

/-- The Python-indexed daily-change loop agrees with the
specification-worded change phase when the arrays are index aligned. -/
theorem applyChangeFrom_eq_spec (inst : Instance) {n : ℕ} (d : ℕ)
    (hmn : inst.inventory_min.length = n) (changes : List ℤ) :
    ∀ (i : ℕ) (inv : List ℤ), inv.length = n → i + changes.length = n →
    applyChangeFrom inst d i changes inv =
      specChange inst.inventory_min d i changes inv := by
  induction changes with
  | nil => intro i inv _ _; rfl
  | cons ch rest ih =>
      intro i inv hlen hsum
      have hi : i < n := by simp at hsum; omega
      have e1 : getPy inv (i : ℤ) = .ok (inv.getD i 0) :=
        getPyNat_eq inv 0 i (by omega)
      have e2 : setPy inv (i : ℤ) (inv.getD i 0 + ch) =
          .ok (inv.set i (inv.getD i 0 + ch)) :=
        setPyNat_eq inv _ i (by omega)
      have e3 : getPy (inv.set i (inv.getD i 0 + ch)) (i : ℤ) =
          .ok ((inv.set i (inv.getD i 0 + ch)).getD i 0) :=
        getPyNat_eq _ 0 i (by simp [hlen]; omega)
      have e4 : getPy inst.inventory_min (i : ℤ) =
          .ok (inst.inventory_min.getD i 0) :=
        getPyNat_eq _ 0 i (by omega)
      simp only [applyChangeFrom, specChange, e1, ok_bind, e2, e3, e4]
      split
      · rfl
      · exact ih (i + 1) _ (by simp [hlen]) (by simp at hsum ⊢; omega)

/-- The Python-indexed holding-cost loop agrees with the
specification-worded accrual (which cannot fail). -/
theorem accrueFrom_eq_spec {n : ℕ} (costs : List ℚ) :
    ∀ (i : ℕ) (inv : List ℤ) (acc : List ℚ),
    inv.length = n → acc.length = n → i + costs.length = n →
    accrueFrom i costs inv acc = .ok (specAccrue i costs inv acc) := by
  induction costs with
  | nil => intro i inv acc _ _ _; rfl
  | cons c rest ih =>
      intro i inv acc hinv hacc hsum
      have hi : i < n := by simp at hsum; omega
      have e1 : getPy inv (i : ℤ) = .ok (inv.getD i 0) :=
        getPyNat_eq inv 0 i (by omega)
      have e2 : getPy acc (i : ℤ) = .ok (acc.getD i 0) :=
        getPyNat_eq acc 0 i (by omega)
      have e3 : setPy acc (i : ℤ) (acc.getD i 0 + c * (inv.getD i 0 : ℚ)) =
          .ok (acc.set i (acc.getD i 0 + c * (inv.getD i 0 : ℚ))) :=
        setPyNat_eq acc _ i (by omega)
      simp only [accrueFrom, specAccrue, e1, ok_bind, e2, e3]
      exact ih (i + 1) inv _ hinv (by simp [hacc]) (by simp at hsum ⊢; omega)

/-- Day-level delivery equivalence. -/
theorem applyDeliveriesDay_eq_spec (inst : Instance) {n : ℕ} (d : ℕ)
    (hmx : inst.inventory_max.length = n) (routes : List (List (ℤ × ℤ))) :
    ∀ (r : ℕ) (inv : List ℤ), inv.length = n →
    (∀ route ∈ routes, ∀ cq ∈ route, 0 < cq.1 ∧ cq.1 < (n : ℤ)) →
    applyDeliveriesDay inst d r routes inv =
      specDeliveriesDay inst.inventory_max d r routes inv := by
  induction routes with
  | nil => intro r inv _ _; rfl
  | cons route rest ih =>
      intro r inv hlen hids
      have hroute := applyDeliveriesRoute_eq_spec inst d r hmx route inv hlen
        (hids route (List.mem_cons_self _ _))
      simp only [applyDeliveriesDay, specDeliveriesDay, hroute]
      cases hres : specDeliveriesRoute inst.inventory_max d r route inv with
      | error e => simp only [error_bind]
      | ok inv1 =>
          simp only [ok_bind]
          have hlen1 : inv1.length = n := by
            rw [specDeliveriesRoute_length inst.inventory_max d r route inv inv1 hres, hlen]
          exact ih (r + 1) inv1 hlen1
            fun rt hrt => hids rt (List.mem_cons_of_mem _ hrt)

/-- The full day loop of the source simulation agrees with the
specification-worded day-by-day simulation. -/
theorem simulateDays_eq_spec (inst : Instance) {n : ℕ}
    (hmx : inst.inventory_max.length = n)
    (hmn : inst.inventory_min.length = n)
    (hch : inst.inventory_change.length = n)
    (hc : inst.inventory_cost.length = n)
    (days : List (List (List (ℤ × ℤ)))) :
    ∀ (d : ℕ) (inv : List ℤ) (acc : List ℚ),
    inv.length = n → acc.length = n → idsInRange n days →
    simulateDays inst d days inv acc = specSimulateDays inst d days inv acc := by
  induction days with
  | nil => intro d inv acc _ _ _; rfl
  | cons dayRoutes rest ih =>
      intro d inv acc hinv hacc hids
      have hday := applyDeliveriesDay_eq_spec inst d hmx dayRoutes 0 inv hinv
        (hids dayRoutes (List.mem_cons_self _ _))
      simp only [simulateDays, specSimulateDays, hday]
      cases hres : specDeliveriesDay inst.inventory_max d 0 dayRoutes inv with
      | error e => simp only [error_bind]
      | ok inv1 =>
          simp only [ok_bind]
          have hlen1 : inv1.length = n := by
            rw [specDeliveriesDay_length inst.inventory_max d dayRoutes 0 inv inv1 hres, hinv]
          have hchg := applyChangeFrom_eq_spec inst d hmn inst.inventory_change 0
            inv1 hlen1 (by simp [hch])
          simp only [hchg]
          cases hres2 : specChange inst.inventory_min d 0 inst.inventory_change inv1 with
          | error e => simp only [error_bind]
          | ok inv2 =>
              simp only [ok_bind]
              have hlen2 : inv2.length = n := by
                rw [specChange_length inst.inventory_min d inst.inventory_change 0
                  inv1 inv2 hres2, hlen1]
              have hacr := accrueFrom_eq_spec inst.inventory_cost 0 inv2 acc
                hlen2 hacc (by simp [hc])
              simp only [hacr, ok_bind]
              exact ih (d + 1) inv2 _ hlen2 (by simp [specAccrue_length, hacc])
                fun dr hdr => hids dr (List.mem_cons_of_mem _ hdr)


unseal Rat.add Rat.mul Rat.inv Rat.sub Rat.ofScientific in
/-- Claim C3: `expect_equal_float` succeeds exactly when the two values
format identically at two decimal places; the float literals `10.005` and
`10.004` compare unequal (they format to `10.01` and `10.00` — the binary64
value of `10.005` lies slightly above the decimal value), and `10.004` and
`10.0044` compare equal (both format to `10.00`). -/
theorem claim_C3 :
    (∀ (s : String) (e a : ℚ),
      expect_equal_float s e a = .ok () ↔ pyFormat2 e = pyFormat2 a) ∧
    expect_equal_float "cost" (float64In8To16 10.005) (float64In8To16 10.004) ≠
      .ok () ∧
    expect_equal_float "cost" (float64In8To16 10.004) (float64In8To16 10.0044) =
      .ok () ∧
    pyFormat2 (float64In8To16 10.005) = "10.01" ∧
    pyFormat2 (float64In8To16 10.004) = "10.00" ∧
    pyFormat2 (float64In8To16 10.0044) = "10.00" := by
  refine ⟨?_, by decide, by decide, by decide, by decide, by decide⟩
  intro s e a
  by_cases h : pyFormat2 e = pyFormat2 a <;> simp [expect_equal_float, h]

unseal Rat.add Rat.mul Rat.inv Rat.sub in
/-- Claim C10: the route grammar only rejects customer ids at or above
`num_nodes`; the route text `0 - -1 ( 5 ) - 0` parses (while id 3 is
rejected on a 3-node instance), and the delivery to customer `-1` is then
applied, through Python negative indexing, to the node at position
`num_nodes - 1`: from inventory `[7, 8, 9]` the delivery of 5 yields
`[2, 8, 14]` (last node receives, depot pays) instead of an error. -/
theorem claim_C10 :
    parse_route 3 (pySplit "0 - -1 ( 5 ) - 0") = .ok [(-1, 5)] ∧
    parse_route 3 (pySplit "0 - 3 ( 5 ) - 0") =
      .error (.nonexistentCustomer 3) ∧
    pyGet ([7, 8, 9] : List ℤ) (-1) = some 9 ∧
    applyDeliveriesRoute instD 0 0 [(-1, 5)] [7, 8, 9] = .ok [2, 8, 14] := by
  decide

unseal Rat.add Rat.mul Rat.inv Rat.sub in
/-- Claim C5 is refuted here: on `instA`/`solA` the whole verification
succeeds although the computed total (transportation 0 plus the two true
holding costs `10.00390625`) formats to `20.01` while the reported total
formats to `20.00` — so the final check cannot be comparing the computed
total; it compares the sum of the three reported figures. -/
theorem claim_C5_counterexample :
    verify_solution instA solA = .ok () ∧
    verify_total_cost solA = .ok () ∧
    computed_transportation instA solA.routes = .ok 0 ∧
    simulateInventoryCosts instA solA = .ok ([1, 1], [2561/256, 2561/256]) ∧
    pyFormat2 ((0 : ℚ) + 2561/256 + 2561/256) ≠ pyFormat2 solA.cost := by
  decide

/-- Claim C5 (amended): the final total-cost check compares the sum of the
three reported figures — `solution.cost_transportation +
solution.cost_inventory_depot + solution.cost_inventory_customers` — with
`solution.cost` under the two-decimal-place formatting rule, raising a
`VerificationError` naming `total cost` on mismatch. -/
theorem claim_C5 (sol : Solution) :
    (verify_total_cost sol = .ok () ↔
      pyFormat2 ((sol.cost_transportation : ℚ) + sol.cost_inventory_depot +
        sol.cost_inventory_customers) = pyFormat2 sol.cost) ∧
    (pyFormat2 ((sol.cost_transportation : ℚ) + sol.cost_inventory_depot +
        sol.cost_inventory_customers) ≠ pyFormat2 sol.cost →
      verify_total_cost sol = .error (.costMismatch "total cost"
        (pyFormat2 ((sol.cost_transportation : ℚ) + sol.cost_inventory_depot +
          sol.cost_inventory_customers)) (pyFormat2 sol.cost))) := by
  constructor
  · by_cases h : pyFormat2 ((sol.cost_transportation : ℚ) +
        sol.cost_inventory_depot + sol.cost_inventory_customers) =
        pyFormat2 sol.cost <;>
      simp [verify_total_cost, expect_equal_float, h]
  · intro h
    simp [verify_total_cost, expect_equal_float, h]

unseal Rat.add Rat.mul Rat.inv Rat.sub in
theorem claim_C5_witness : verify_total_cost solA = .ok () :=
  (claim_C5 solA).1.mpr (by decide)

unseal Rat.add Rat.mul Rat.inv Rat.sub in
/-- Claim C7 is refuted here: `solB` has a capacity violation on day 1 and
a duplicate delivery on day 2, yet the reported error is the day-2
uniqueness violation (0-based day index 1), not the day-1 capacity
violation — the checks run check-by-check over all days, not day-by-day. -/
theorem claim_C7_counterexample :
    verify_solution instB solB = .error (.tooManyDeliveries 1 1 2) ∧
    verify_capacities instB solB = .error (.capacityExceeded 0 0 100) ∧
    verify_at_most_one_delivery_to_each_customer_per_day instB solB =
      .error (.tooManyDeliveries 1 1 2) := by
  decide

/-- Claim C7 (amended): verification of one solution is fail-fast by check
category, each category scanning all days: uniqueness over all days, then
capacities over all days, then transportation reconciliation, then the
inventory simulation, then the total-cost check; the first violated check
supplies the sole reported error.  For a solution with a day-1 capacity
violation and a day-2 duplicate delivery the reported error is therefore
the day-2 uniqueness violation. -/
theorem claim_C7 (inst : Instance) (sol : Solution) :
    (∀ e, verify_at_most_one_delivery_to_each_customer_per_day inst sol =
        .error e → verify_solution inst sol = .error e) ∧
    (∀ e, verify_at_most_one_delivery_to_each_customer_per_day inst sol =
        .ok () → verify_capacities inst sol = .error e →
      verify_solution inst sol = .error e) ∧
    (∀ e, verify_at_most_one_delivery_to_each_customer_per_day inst sol =
        .ok () → verify_capacities inst sol = .ok () →
      verify_transportation_costs inst sol = .error e →
      verify_solution inst sol = .error e) ∧
    (∀ e, verify_at_most_one_delivery_to_each_customer_per_day inst sol =
        .ok () → verify_capacities inst sol = .ok () →
      verify_transportation_costs inst sol = .ok () →
      verify_inventory_limits_and_cost inst sol = .error e →
      verify_solution inst sol = .error e) ∧
    (verify_at_most_one_delivery_to_each_customer_per_day inst sol = .ok () →
      verify_capacities inst sol = .ok () →
      verify_transportation_costs inst sol = .ok () →
      verify_inventory_limits_and_cost inst sol = .ok () →
      verify_solution inst sol = verify_total_cost sol) := by
  refine ⟨?_, ?_, ?_, ?_, ?_⟩
  · intro e h1
    simp only [verify_solution, h1, error_bind]
  · intro e h1 h2
    simp only [verify_solution, h1, ok_bind, h2, error_bind]
  · intro e h1 h2 h3
    simp only [verify_solution, h1, ok_bind, h2, h3, error_bind]
  · intro e h1 h2 h3 h4
    simp only [verify_solution, h1, ok_bind, h2, h3, h4, error_bind]
  · intro h1 h2 h3 h4
    simp only [verify_solution, h1, ok_bind, h2, h3, h4]

unseal Rat.add Rat.mul Rat.inv Rat.sub in
theorem claim_C7_witness :
    verify_solution instB solB = .error (.tooManyDeliveries 1 1 2) :=
  (claim_C7 instB solB).1 (VerifErr.tooManyDeliveries 1 1 2) (by decide)

/-- Claim C9: `verify_time` fails with the unknown-processor error whenever
the benchmark lookup misses (whatever the reported time), and for a known
score `m > 0` it succeeds exactly when the reported time does not exceed
`2000 / m * 1800` seconds, failing with the time-limit error otherwise. -/
theorem claim_C9 (sol : Solution) (processors : List (String × ℚ)) :
    (processors.lookup sol.processor = none →
      verify_time sol processors = .error (.unknownProcessor sol.processor)) ∧
    (∀ m, processors.lookup sol.processor = some m → 0 < m →
      ((verify_time sol processors = .ok () ↔
          sol.time ≤ 2000 / m * (30 * 60)) ∧
        (sol.time > 2000 / m * (30 * 60) →
          verify_time sol processors =
            .error (.timeLimitExceeded sol.time (2000 / m * (30 * 60)))))) := by
  constructor
  · intro h
    simp only [verify_time, h]
  · intro m hm _
    simp only [verify_time, hm]
    constructor
    · constructor
      · intro hok
        by_cases ht : sol.time > 2000 / m * (30 * 60)
        · simp [ht] at hok
        · exact not_lt.mp ht
      · intro hle
        have ht : ¬sol.time > 2000 / m * (30 * 60) := not_lt.mpr hle
        simp [ht]
    · intro ht
      simp [ht]

unseal Rat.add Rat.mul Rat.inv Rat.sub in
theorem claim_C9_witness :
    verify_time solA [] = .error (.unknownProcessor "x") ∧
    verify_time solA [("x", 2000)] = .ok () := by
  constructor
  · exact (claim_C9 solA []).1 (by decide)
  · exact ((claim_C9 solA [("x", 2000)]).2 2000 (by decide) (by norm_num)).1.mpr
      (by norm_num [solA])

unseal Rat.add Rat.mul Rat.inv Rat.sub in
/-- Claim C6 is refuted here: the instance text `linesC` declares a
customer start level 5 above its maximum 2, yet parsing succeeds with only
a console warning, and the full verification of a correctly-reported
solution passes — no start-level pre-check exists. -/
theorem claim_C6_counterexample :
    mkInstance linesC = .ok (instC, [Warning.startAboveMax "1" "5" "2"]) ∧
    instC.inventory_start.getD 1 0 > instC.inventory_max.getD 1 0 ∧
    verify_solution instC solC = .ok () := by
  decide

unseal Rat.add Rat.mul Rat.inv Rat.sub in
/-- Claim C8 is refuted here: the instance text `lines8` declares
`num_nodes = 3` but supplies a single customer line; parsing succeeds
without any error and yields per-node arrays of length 2. -/
theorem claim_C8_counterexample :
    mkInstance lines8 = .ok (inst8, []) ∧
    inst8.num_nodes = 3 ∧
    inst8.inventory_start.length = 2 ∧
    inst8.pos.length = 2 := by
  decide

/-- Claim C1: for every instance with index-aligned per-node arrays and
every solution whose routes mention genuine customer ids, the inventory
pass of `verify_solution` computes exactly the day-by-day simulation the
specification describes: starting from a copy of `inventory_start`, each
day first applies every delivery of every route in order
(`inventory[customer] += qty`, `inventory[depot] -= qty`, erroring
immediately when a delivery pushes the customer above
`inventory_max[customer]`), then adds `inventory_change[i]` to every node
including the depot (erroring when a node falls below `inventory_min[i]`,
the depot's lower bound included), and then accrues
`inventory_cost[i] * inventory[i]` at the post-change levels. -/
theorem claim_C1 (inst : Instance) (sol : Solution) (n : ℕ)
    (hwf : inst.wf n) (hids : idsInRange n sol.routes) :
    simulateInventoryCosts inst sol = specInventorySimulation inst sol := by
  obtain ⟨hnn, hs, hmx, hmn, hch, hc⟩ := hwf
  unfold simulateInventoryCosts specInventorySimulation
  exact simulateDays_eq_spec inst hmx hmn hch hc sol.routes 0
    inst.inventory_start (List.replicate inst.num_nodes.toNat 0) hs
    (by simp [hnn]) hids

unseal Rat.add Rat.mul Rat.inv Rat.sub in
theorem claim_C1_witness :
    instA.wf 2 ∧ idsInRange 2 solA.routes ∧
    simulateInventoryCosts instA solA = specInventorySimulation instA solA :=
  ⟨by decide, by decide, claim_C1 instA solA 2 (by decide) (by decide)⟩

/-- Claim C2: writing `c` for the computed transportation cost (the sum of
rounded distances along every tour `depot → stops → depot`) and `acc` for
the simulated per-node holding costs, `verify_transportation_costs`
succeeds exactly on integer equality `c = solution.cost_transportation`
(no tolerance) and otherwise raises the error naming
`total transportation cost`, while `verify_inventory_limits_and_cost`
compares the computed customer holding cost (`Σ acc[1..]`) and the depot
holding cost (`acc[0]`) with the reported figures by equality of their
two-decimal formatted strings, raising the error naming the offending
category. -/
theorem claim_C2 (inst : Instance) (sol : Solution) (c : ℤ) (inv : List ℤ)
    (acc : List ℚ) (cd : ℚ)
    (htr : computed_transportation inst sol.routes = .ok c)
    (hsim : simulateInventoryCosts inst sol = .ok (inv, acc))
    (hd : getPy acc 0 = .ok cd) :
    (verify_transportation_costs inst sol =
      if c = sol.cost_transportation then .ok ()
      else .error (.costMismatch "total transportation cost" (toString c)
        (toString sol.cost_transportation))) ∧
    (verify_inventory_limits_and_cost inst sol =
      if pyFormat2 (acc.drop 1).sum = pyFormat2 sol.cost_inventory_customers then
        if pyFormat2 cd = pyFormat2 sol.cost_inventory_depot then .ok ()
        else .error (.costMismatch "total inventory cost at depot"
          (pyFormat2 cd) (pyFormat2 sol.cost_inventory_depot))
      else .error (.costMismatch "total inventory cost at customers"
        (pyFormat2 (acc.drop 1).sum) (pyFormat2 sol.cost_inventory_customers))) := by
  constructor
  · simp only [verify_transportation_costs, htr, ok_bind]
    by_cases h : c = sol.cost_transportation <;> simp [expect_equal, h]
  · simp only [verify_inventory_limits_and_cost, hsim, ok_bind,
      expect_equal_float]
    by_cases h1 : pyFormat2 (acc.drop 1).sum =
        pyFormat2 sol.cost_inventory_customers
    · simp only [if_neg (not_not_intro h1), ok_bind, hd, if_pos h1]
      by_cases h2 : pyFormat2 cd = pyFormat2 sol.cost_inventory_depot
      · rw [if_neg (not_not_intro h2), if_pos h2]
      · rw [if_pos h2, if_neg h2]
    · simp only [if_pos h1, error_bind, if_neg h1]

unseal Rat.add Rat.mul Rat.inv Rat.sub in
theorem claim_C2_witness :
    verify_transportation_costs instA solA = .ok () ∧
    verify_inventory_limits_and_cost instA solA = .ok () := by
  have h := claim_C2 instA solA 0 [1, 1] [2561/256, 2561/256] (2561/256)
    (by decide) (by decide) (by decide)
  constructor
  · rw [h.1]; decide
  · rw [h.2]; decide

/-- Evaluation helper: once the floor of `4 dsq` and the integer square
root are known, `rounded_distance` is `(k + 1) / 2`. -/
theorem rounded_distance_eval (s t : ℚ × ℚ) (N k : ℕ)
    (hN : ⌊4 * ((s.1 - t.1) ^ 2 + (s.2 - t.2) ^ 2)⌋ = (N : ℤ))
    (hk : Nat.sqrt N = k) :
    rounded_distance s t = ((k + 1) / 2 : ℕ) := by
  simp only [rounded_distance, hN, Int.toNat_natCast, hk]

/-- Claim C4: for every pair of nodes, `rounded_distance` equals
`⌊sqrt(dx² + dy²) + 1/2⌋` — the Euclidean distance rounded half-up and
truncated to an integer; in particular Δ = (3,4) gives 5, a distance of
exactly 4.49 gives 4, and a distance of exactly 4.5 gives 5 (round-half-up,
not round-half-to-even). -/
theorem claim_C4 :
    (∀ s t : ℚ × ℚ, rounded_distance s t =
      ⌊Real.sqrt (((s.1 - t.1 : ℚ) : ℝ) ^ 2 + ((s.2 - t.2 : ℚ) : ℝ) ^ 2) +
        1/2⌋) ∧
    rounded_distance (0, 0) (3, 4) = 5 ∧
    rounded_distance (0, 0) (449/100, 0) = 4 ∧
    rounded_distance (0, 0) (9/2, 0) = 5 := by
  refine ⟨?_, ?_, ?_, ?_⟩
  · intro s t
    simp only [rounded_distance]
    set q : ℚ := (s.1 - t.1) ^ 2 + (s.2 - t.2) ^ 2 with hqdef
    set d : ℝ := ((s.1 - t.1 : ℚ) : ℝ) ^ 2 + ((s.2 - t.2 : ℚ) : ℝ) ^ 2 with hddef
    have hq0 : (0 : ℚ) ≤ q := by rw [hqdef]; positivity
    have hdq : d = (q : ℝ) := by rw [hddef, hqdef]; push_cast; ring
    have hd0 : (0 : ℝ) ≤ d := by rw [hdq]; exact_mod_cast hq0
    have hfl : (0 : ℤ) ≤ ⌊4 * q⌋ := Int.floor_nonneg.mpr (by positivity)
    set m : ℕ := Int.toNat ⌊4 * q⌋ with hmdef
    have hm : (m : ℤ) = ⌊4 * q⌋ := Int.toNat_of_nonneg hfl
    have hmle4q : (m : ℚ) ≤ 4 * q := by
      have h1 := Int.floor_le (4 * q)
      have h2 : ((m : ℤ) : ℚ) = ((⌊4 * q⌋ : ℤ) : ℚ) := by exact_mod_cast hm
      push_cast at h2
      rw [h2]
      exact_mod_cast h1
    have h4qlt : 4 * q < (m : ℚ) + 1 := by
      have h1 := Int.lt_floor_add_one (4 * q)
      have h2 : ((m : ℤ) : ℚ) = ((⌊4 * q⌋ : ℤ) : ℚ) := by exact_mod_cast hm
      push_cast at h2
      rw [h2]
      exact_mod_cast h1
    have hmled : (m : ℝ) ≤ 4 * d := by
      rw [hdq]
      exact_mod_cast hmle4q
    have h4dlt : 4 * d < (m : ℝ) + 1 := by
      rw [hdq]
      exact_mod_cast h4qlt
    set k : ℕ := Nat.sqrt m with hkdef
    have hk2 : (k : ℕ) ^ 2 ≤ m := Nat.sqrt_le' m
    have hmk : m < (k + 1) ^ 2 := Nat.lt_succ_sqrt' m
    have hsq4d : Real.sqrt (4 * d) = 2 * Real.sqrt d := by
      rw [show (4 : ℝ) * d = 2 ^ 2 * d by ring,
        Real.sqrt_mul (by positivity) d,
        Real.sqrt_sq (by norm_num : (0 : ℝ) ≤ 2)]
    have klow : (k : ℝ) ≤ Real.sqrt (4 * d) := by
      rw [Real.le_sqrt (Nat.cast_nonneg k) (by positivity)]
      calc ((k : ℝ)) ^ 2 ≤ (m : ℝ) := by exact_mod_cast hk2
        _ ≤ 4 * d := hmled
    have kup : Real.sqrt (4 * d) < (k : ℝ) + 1 := by
      rw [Real.sqrt_lt' (by positivity : (0 : ℝ) < (k : ℝ) + 1)]
      calc 4 * d < (m : ℝ) + 1 := h4dlt
        _ ≤ ((k : ℝ) + 1) ^ 2 := by exact_mod_cast Nat.succ_le_of_lt hmk
    rw [hsq4d] at klow kup
    symm
    rw [Int.floor_eq_iff]
    have h2n0le : 2 * ((k + 1) / 2) ≤ k + 1 := by omega
    have hkle2n0 : k ≤ 2 * ((k + 1) / 2) := by omega
    have h1 : ((2 * ((k + 1) / 2) : ℕ) : ℝ) ≤ (k : ℝ) + 1 := by
      exact_mod_cast h2n0le
    have h2 : ((k : ℝ)) ≤ ((2 * ((k + 1) / 2) : ℕ) : ℝ) := by
      exact_mod_cast hkle2n0
    push_cast at h1 h2
    constructor
    · rw [Int.cast_natCast]
      linarith
    · rw [Int.cast_natCast]
      linarith
  · have h := rounded_distance_eval (0, 0) (3, 4) 100 10
      (Int.floor_eq_iff.mpr (by norm_num))
      ((Nat.eq_sqrt.mpr (by norm_num)).symm)
    rw [h]
    norm_num
  · have h := rounded_distance_eval (0, 0) (449/100, 0) 80 8
      (Int.floor_eq_iff.mpr (by norm_num))
      ((Nat.eq_sqrt.mpr (by norm_num)).symm)
    rw [h]
    norm_num
  · have h := rounded_distance_eval (0, 0) (9/2, 0) 81 9
      (Int.floor_eq_iff.mpr (by norm_num))
      ((Nat.eq_sqrt.mpr (by norm_num)).symm)
    rw [h]
    norm_num

unseal Rat.add Rat.mul Rat.inv Rat.sub in
/-- Claim C6 (amended): there is no start-level pre-check in verification.
A customer whose parsed start level lies outside `[l, u]` is recorded with
its data unchanged and produces only console warnings (below-minimum
first, then above-maximum), and verification proceeds normally: on the
out-of-bounds instance `instC` the full `verify_solution` succeeds. -/
theorem claim_C6 (inst : Instance) (ws : List Warning)
    (index x y start u l change cost : String) (xv yv hv : ℚ) (sv lv uv cv : ℤ)
    (hx : pyFloat? x = some xv) (hy : pyFloat? y = some yv)
    (hs : pyInt? start = some sv) (hl : pyInt? l = some lv)
    (hu : pyInt? u = some uv) (hc : pyInt? change = some cv)
    (hcost : pyFloat? cost = some hv) :
    appendNodeListsByCustomer inst ws [index, x, y, start, u, l, change, cost] =
      .ok ({ inst with
              pos := inst.pos ++ [(xv, yv)]
              inventory_start := inst.inventory_start ++ [sv]
              inventory_max := inst.inventory_max ++ [uv]
              inventory_min := inst.inventory_min ++ [lv]
              inventory_change := inst.inventory_change ++ [-cv]
              inventory_cost := inst.inventory_cost ++ [hv] },
        ws ++ (if sv < lv then [Warning.startBelowMin index start l] else [])
           ++ (if sv > uv then [Warning.startAboveMax index start u] else [])) ∧
    verify_solution instC solC = .ok () ∧
    instC.inventory_start.getD 1 0 > instC.inventory_max.getD 1 0 := by
  refine ⟨?_, by decide, by decide⟩
  simp only [appendNodeListsByCustomer, parseFloatTok, parseIntTok,
    hx, hy, hs, hl, hu, hc, hcost, ok_bind]

unseal Rat.add Rat.mul Rat.inv Rat.sub in
theorem claim_C6_witness :
    appendNodeListsByCustomer instCdepot []
      ["1", "1", "0", "5", "2", "0", "1", "10"] =
      .ok (instC, [Warning.startAboveMax "1" "5" "2"]) := by
  have h := claim_C6 instCdepot [] "1" "1" "0" "5" "2" "0" "1" "10"
    1 0 10 5 0 2 1 (by decide) (by decide) (by decide) (by decide)
    (by decide) (by decide) (by decide)
  rw [h.1]
  decide

/-- Inversion for a successful customer-line append: exactly one entry is
added to each per-node array and the meta fields are untouched. -/
theorem appendNode_lengths (inst : Instance) (ws : List Warning)
    (fields : List String) (inst' : Instance) (ws' : List Warning)
    (h : appendNodeListsByCustomer inst ws fields = .ok (inst', ws')) :
    inst'.pos.length = inst.pos.length + 1 ∧
    inst'.inventory_start.length = inst.inventory_start.length + 1 ∧
    inst'.inventory_max.length = inst.inventory_max.length + 1 ∧
    inst'.inventory_min.length = inst.inventory_min.length + 1 ∧
    inst'.inventory_change.length = inst.inventory_change.length + 1 ∧
    inst'.inventory_cost.length = inst.inventory_cost.length + 1 ∧
    inst'.num_nodes = inst.num_nodes := by
  obtain _ | ⟨f1, _ | ⟨f2, _ | ⟨f3, _ | ⟨f4, _ | ⟨f5, _ | ⟨f6, _ | ⟨f7,
    _ | ⟨f8, _ | ⟨f9, rest⟩⟩⟩⟩⟩⟩⟩⟩⟩ := fields
  case nil => simp [appendNodeListsByCustomer] at h
  case cons.nil => simp [appendNodeListsByCustomer] at h
  case cons.cons.nil => simp [appendNodeListsByCustomer] at h
  case cons.cons.cons.nil => simp [appendNodeListsByCustomer] at h
  case cons.cons.cons.cons.nil => simp [appendNodeListsByCustomer] at h
  case cons.cons.cons.cons.cons.nil => simp [appendNodeListsByCustomer] at h
  case cons.cons.cons.cons.cons.cons.nil =>
    simp [appendNodeListsByCustomer] at h
  case cons.cons.cons.cons.cons.cons.cons.nil =>
    simp [appendNodeListsByCustomer] at h
  case cons.cons.cons.cons.cons.cons.cons.cons.cons =>
    simp [appendNodeListsByCustomer] at h
  simp only [appendNodeListsByCustomer] at h
  cases hx : parseFloatTok f2 with
  | error e => simp [hx, error_bind] at h
  | ok xv =>
  simp only [hx, ok_bind] at h
  cases hy : parseFloatTok f3 with
  | error e => simp [hy, error_bind] at h
  | ok yv =>
  simp only [hy, ok_bind] at h
  cases hs : parseIntTok f4 with
  | error e => simp [hs, error_bind] at h
  | ok sv =>
  simp only [hs, ok_bind] at h
  cases hl : parseIntTok f6 with
  | error e => simp [hl, error_bind] at h
  | ok lv =>
  simp only [hl, ok_bind] at h
  cases hu : parseIntTok f5 with
  | error e => simp [hu, error_bind] at h
  | ok uv =>
  simp only [hu, ok_bind] at h
  cases hc : parseIntTok f7 with
  | error e => simp [hc, error_bind] at h
  | ok cv =>
  simp only [hc, ok_bind] at h
  cases hcost : parseFloatTok f8 with
  | error e => simp [hcost, error_bind] at h
  | ok hv =>
  simp only [hcost, ok_bind] at h
  injection h with h
  obtain ⟨h1, h2⟩ := Prod.ext_iff.mp h
  subst h1
  simp

/-- Inversion for a successful depot line: every per-node array starts as a
singleton. -/
theorem initDepot_lengths (nn nd cap nv : ℤ) (fields : List String)
    (inst0 : Instance) (h : initNodeListsByDepot nn nd cap nv fields = .ok inst0) :
    inst0.pos.length = 1 ∧
    inst0.inventory_start.length = 1 ∧
    inst0.inventory_max.length = 1 ∧
    inst0.inventory_min.length = 1 ∧
    inst0.inventory_change.length = 1 ∧
    inst0.inventory_cost.length = 1 ∧
    inst0.num_nodes = nn := by
  obtain _ | ⟨f1, _ | ⟨f2, _ | ⟨f3, _ | ⟨f4, _ | ⟨f5, _ | ⟨f6,
    _ | ⟨f7, rest⟩⟩⟩⟩⟩⟩⟩ := fields
  case nil => simp [initNodeListsByDepot] at h
  case cons.nil => simp [initNodeListsByDepot] at h
  case cons.cons.nil => simp [initNodeListsByDepot] at h
  case cons.cons.cons.nil => simp [initNodeListsByDepot] at h
  case cons.cons.cons.cons.nil => simp [initNodeListsByDepot] at h
  case cons.cons.cons.cons.cons.nil => simp [initNodeListsByDepot] at h
  case cons.cons.cons.cons.cons.cons.cons =>
    simp [initNodeListsByDepot] at h
  simp only [initNodeListsByDepot] at h
  cases hx : parseFloatTok f2 with
  | error e => simp [hx, error_bind] at h
  | ok xv =>
  simp only [hx, ok_bind] at h
  cases hy : parseFloatTok f3 with
  | error e => simp [hy, error_bind] at h
  | ok yv =>
  simp only [hy, ok_bind] at h
  cases hs : parseIntTok f4 with
  | error e => simp [hs, error_bind] at h
  | ok sv =>
  simp only [hs, ok_bind] at h
  cases hc : parseIntTok f5 with
  | error e => simp [hc, error_bind] at h
  | ok cv =>
  simp only [hc, ok_bind] at h
  cases hcost : parseFloatTok f6 with
  | error e => simp [hcost, error_bind] at h
  | ok hv =>
  simp only [hcost, ok_bind] at h
  injection h with h
  subst h
  simp

/-- The customer-line loop appends exactly one entry per line to each
per-node array and never touches the meta fields. -/
theorem appendCustomers_lengths (customers : List String) :
    ∀ (inst : Instance) (ws : List Warning) (inst' : Instance)
      (ws' : List Warning),
    appendCustomers inst ws customers = .ok (inst', ws') →
    inst'.pos.length = inst.pos.length + customers.length ∧
    inst'.inventory_start.length =
      inst.inventory_start.length + customers.length ∧
    inst'.inventory_max.length = inst.inventory_max.length + customers.length ∧
    inst'.inventory_min.length = inst.inventory_min.length + customers.length ∧
    inst'.inventory_change.length =
      inst.inventory_change.length + customers.length ∧
    inst'.inventory_cost.length =
      inst.inventory_cost.length + customers.length ∧
    inst'.num_nodes = inst.num_nodes := by
  induction customers with
  | nil =>
      intro inst ws inst' ws' h
      simp only [appendCustomers] at h
      injection h with h
      obtain ⟨h1, _⟩ := Prod.ext_iff.mp h
      subst h1
      simp
  | cons line rest ih =>
      intro inst ws inst' ws' h
      simp only [appendCustomers] at h
      cases hstep : appendNodeListsByCustomer inst ws (pySplit line) with
      | error e => simp [hstep, error_bind] at h
      | ok p =>
          simp only [hstep, ok_bind] at h
          obtain ⟨instm, wsm⟩ := p
          simp only at h
          obtain ⟨a1, a2, a3, a4, a5, a6, a7⟩ :=
            appendNode_lengths inst ws (pySplit line) instm wsm hstep
          obtain ⟨b1, b2, b3, b4, b5, b6, b7⟩ := ih instm wsm inst' ws' h
          refine ⟨?_, ?_, ?_, ?_, ?_, ?_, ?_⟩
          · rw [b1, a1]; simp; omega
          · rw [b2, a2]; simp; omega
          · rw [b3, a3]; simp; omega
          · rw [b4, a4]; simp; omega
          · rw [b5, a5]; simp; omega
          · rw [b6, a6]; simp; omega
          · rw [b7, a7]

/-- Claim C8 (amended): the instance parser performs no node-count check:
whenever an instance text parses successfully, every per-node array has
`1 + (number of supplied customer lines)` entries, regardless of the
declared `num_nodes`; no error relates the customer-line count to
`num_nodes`. -/
theorem claim_C8 (metaL depotL : String) (customers : List String)
    (inst : Instance) (ws : List Warning)
    (h : mkInstance (metaL :: depotL :: customers) = .ok (inst, ws)) :
    inst.pos.length = 1 + customers.length ∧
    inst.inventory_start.length = 1 + customers.length ∧
    inst.inventory_max.length = 1 + customers.length ∧
    inst.inventory_min.length = 1 + customers.length ∧
    inst.inventory_change.length = 1 + customers.length ∧
    inst.inventory_cost.length = 1 + customers.length := by
  simp only [mkInstance] at h
  cases hml : parseIntList (pySplit metaL) with
  | error e => simp [hml, error_bind] at h
  | ok meta_data =>
  simp only [hml, ok_bind] at h
  obtain _ | ⟨nn, _ | ⟨nd, _ | ⟨cap, _ | ⟨nv, _ | ⟨x5, r5⟩⟩⟩⟩⟩ := meta_data
  case nil => simp at h
  case cons.nil => simp at h
  case cons.cons.nil => simp at h
  case cons.cons.cons.nil => simp at h
  case cons.cons.cons.cons.cons => simp at h
  simp only at h
  cases hdep : initNodeListsByDepot nn nd cap nv (pySplit depotL) with
  | error e => simp [hdep, error_bind] at h
  | ok inst0 =>
  simp only [hdep, ok_bind] at h
  obtain ⟨d1, d2, d3, d4, d5, d6, _⟩ :=
    initDepot_lengths nn nd cap nv (pySplit depotL) inst0 hdep
  obtain ⟨c1, c2, c3, c4, c5, c6, _⟩ :=
    appendCustomers_lengths customers inst0 [] inst ws h
  refine ⟨?_, ?_, ?_, ?_, ?_, ?_⟩ <;> omega

unseal Rat.add Rat.mul Rat.inv Rat.sub in
theorem claim_C8_witness :
    inst8.inventory_start.length = 1 + 1 := by
  have h := claim_C8 "3 1 10 1" "0 0 0 1 0 10" ["1 1 0 5 10 0 1 10"]
    inst8 [] (by decide)
  simpa using h.2.1
